import Mathlib

/-!
Verification of `scripts/convert_protofile.py`: a line-oriented converter that
parses a simplified protobuf schema (nested `message`/`enum` blocks with
`name = value` integer entries) into a nested ordered mapping, which is then
serialized as JSON.

The embedding below translates the Python source directly:
  line handling      -> `stepLine` / `runLines` (the `for line in self._in` loop)
  MESSAGE_REGEX      -> `matchMessage`
  VALUE_REGEX        -> `matchValue`
  END_REGEX          -> `matchEnd`
  int(tok, 0)        -> `pyIntBase0` (Python 2 semantics of `int` with base 0)
  OrderedDict        -> association list `Doc` with `odSet` for item assignment
  push_message       -> `pushMessage`  (stack frames are zipper frames: the
                        parent mapping at push time together with the key under
                        which the child was inserted; popping writes the child
                        back under that key, which models the Python reference
                        aliasing of nested mutable dicts)
  pop_stack          -> `popStack` (fails, like the IndexError on an empty
                        list, when no block is open)
  end-of-input loop  -> `finish`
Runtime failures (IndexError from a stray close, ValueError from `int`) are
modelled by `Option`: `none` means the Python program raises and no document
is returned.
-/

namespace ConvertProtofile

/-- Python 2 `\w` character class for `str` patterns without re.UNICODE:
letters, digits and underscore. -/
def isPyWordChar (c : Char) : Bool :=
  let n := c.toNat
  (97 ≤ n && n ≤ 122) || (65 ≤ n && n ≤ 90) || (48 ≤ n && n ≤ 57) || n = 95

/-- Python `\s` character class for `str` patterns: space, tab, newline,
carriage return, form feed, vertical tab. -/
def isPySpace (c : Char) : Bool :=
  c = ' ' || c = '\t' || c = '\n' || c = '\r' || c = '\x0c' || c = '\x0b'

/-- Strips an exact literal from the front of a character list, returning the
remainder, or `none` when the literal is not present. -/
def stripLit : List Char → List Char → Option (List Char)
  | [], s => some s
  | _ :: _, [] => none
  | p :: ps, c :: cs => if c = p then stripLit ps cs else none

/-- The check `MESSAGE_REGEX.match(line)` for
`MESSAGE_REGEX = re.compile('\s*(message|enum) (?P<name>\w+) \x7b')`,
returning the captured `name` group.  `re.match` anchors at the start only, so
text after the opening brace is ignored.  Because `\w` can match neither the
single mandatory space nor the brace, the regex is deterministic: the name is
the maximal word run after the keyword and must be followed by the literal
two characters space and brace. -/
def matchMessage (line : String) : Option String :=
  let r := line.toList.dropWhile isPySpace
  let afterKw :=
    match stripLit "message ".toList r with
    | some r1 => some r1
    | none => stripLit "enum ".toList r
  match afterKw with
  | none => none
  | some r1 =>
    let name := r1.takeWhile isPyWordChar
    let r2 := r1.dropWhile isPyWordChar
    if name.isEmpty then none
    else
      match stripLit " \x7b".toList r2 with
      | some _ => some (String.mk name)
      | none => none

/-- The check `VALUE_REGEX.match(line)` for
`VALUE_REGEX = re.compile('\s*(?P<name>\w+)\s*=\s*(?P<value>\w+)')`,
returning the captured `name` and `value` groups.  `\w` and `\s` are disjoint
and `=` belongs to neither class, so greedy matching is deterministic: both
captures are maximal word runs and trailing text is ignored. -/
def matchValue (line : String) : Option (String × String) :=
  let r := line.toList.dropWhile isPySpace
  let name := r.takeWhile isPyWordChar
  let r1 := r.dropWhile isPyWordChar
  if name.isEmpty then none
  else
    match r1.dropWhile isPySpace with
    | '=' :: r2 =>
      let v := (r2.dropWhile isPySpace).takeWhile isPyWordChar
      if v.isEmpty then none else some (String.mk name, String.mk v)
    | _ => none

/-- The check `END_REGEX.match(line)` for
`END_REGEX = re.compile('\s*\x7d')`: optional whitespace then a closing
brace; the rest of the line is ignored. -/
def matchEnd (line : String) : Bool :=
  match line.toList.dropWhile isPySpace with
  | c :: _ => c = '\x7d'
  | [] => false

/-- Value of one digit character, hexadecimal digits included, by code
point: 48-57 are 0-9, 97-102 are a-f, 65-70 are A-F. -/
def hexVal (c : Char) : Option Nat :=
  let n := c.toNat
  if 48 ≤ n && n ≤ 57 then some (n - 48)
  else if 97 ≤ n && n ≤ 102 then some (n - 87)
  else if 65 ≤ n && n ≤ 70 then some (n - 55)
  else none

/-- Parses a nonempty digit string in the given base; `none` when empty or
when any character is not a digit below the base. -/
def parseDigitsBase (base : Nat) : List Char → Option Nat
  | [] => none
  | cs =>
    cs.foldl
      (fun acc c =>
        match acc, hexVal c with
        | some a, some d => if d < base then some (a * base + d) else none
        | _, _ => none)
      (some 0)

/-- The call `int(s, 0)` of the source, in Python 2 semantics (the script is
part of the Python 2 build tooling), restricted to the word tokens produced by
`VALUE_REGEX` (no sign, no surrounding whitespace): a `0x`/`0X` prefix selects
base 16, `0b`/`0B` base 2, `0o`/`0O` base 8, any other leading `0` makes the
whole token octal, and otherwise the token must be decimal digits.  `none`
models the ValueError raised on an invalid literal. -/
def pyIntBase0Chars : List Char → Option Int
  | '0' :: 'x' :: rest => (parseDigitsBase 16 rest).map Int.ofNat
  | '0' :: 'X' :: rest => (parseDigitsBase 16 rest).map Int.ofNat
  | '0' :: 'b' :: rest => (parseDigitsBase 2 rest).map Int.ofNat
  | '0' :: 'B' :: rest => (parseDigitsBase 2 rest).map Int.ofNat
  | '0' :: 'o' :: rest => (parseDigitsBase 8 rest).map Int.ofNat
  | '0' :: 'O' :: rest => (parseDigitsBase 8 rest).map Int.ofNat
  | '0' :: rest => (parseDigitsBase 8 ('0' :: rest)).map Int.ofNat
  | cs => (parseDigitsBase 10 cs).map Int.ofNat

/-- String version of `pyIntBase0Chars`. -/
def pyIntBase0 (s : String) : Option Int :=
  pyIntBase0Chars s.toList

/-- A value stored in the nested document: an integer constant or a nested
block (the Python code stores either `int` values or nested OrderedDicts). -/
inductive Value where
  | int : Int → Value
  | doc : List (String × Value) → Value

/-- A document: an insertion-ordered mapping, as an association list. -/
abbrev Doc := List (String × Value)

/-- OrderedDict item assignment `d[k] = v`: an existing key keeps its
position and gets the new value; a new key is appended at the end.  Documents
built by the parser never contain duplicate keys, so replacing the first
occurrence is exact. -/
def odSet : Doc → String → Value → Doc
  | [], k, v => [(k, v)]
  | (k0, v0) :: rest, k, v =>
    if k0 = k then (k, v) :: rest else (k0, v0) :: odSet rest k v

/-- Parser state: `d` is the currently active mapping (`self.d`), `parents`
the stack (`self.parents`).  Each frame holds the parent mapping as it was
when its child block was pushed — the child already inserted under the
recorded key as an empty placeholder — so that popping can write the fully
built child back under that key, exactly as the shared mutable reference does
in Python. -/
structure ParseState where
  d : Doc
  parents : List (Doc × String)

/-- Initial state: `self.d = OrderedDict()`, `self.parents = []`. -/
def initState : ParseState := ⟨[], []⟩

/-- `push_message(name)`: insert a fresh empty mapping into the active one
under `name`, push the (updated) active mapping, and make the fresh mapping
active. -/
def pushMessage (st : ParseState) (name : String) : ParseState :=
  ⟨[], (odSet st.d name (Value.doc []), name) :: st.parents⟩

/-- `pop_stack()`: restore the parent as the active mapping, recording the
finished child under its key.  `none` models the IndexError of `list.pop()`
on an empty stack. -/
def popStack (st : ParseState) : Option ParseState :=
  match st.parents with
  | [] => none
  | (p, name) :: rest => some ⟨odSet p name (Value.doc st.d), rest⟩

/-- The body of `match_value` after the regex matched: `int(value, 0)` then
item assignment into the active mapping; `none` when `int` raises. -/
def valueAction (st : ParseState) (name tok : String) : Option ParseState :=
  match pyIntBase0 tok with
  | some i => some ⟨odSet st.d name (Value.int i), st.parents⟩
  | none => none

/-- One loop iteration:
`self.match_message(line) or self.match_value(line) or self.match_end(line)`.
The three checks run in this order and the first whose regex matches handles
the line; a line matching none of them is ignored.  `none` models an
uncaught exception (ValueError from `int`, IndexError from a stray close). -/
def stepLine (st : ParseState) (line : String) : Option ParseState :=
  match matchMessage line with
  | some name => some (pushMessage st name)
  | none =>
    match matchValue line with
    | some (name, tok) => valueAction st name tok
    | none =>
      if matchEnd line then popStack st
      else some st

/-- The `for line in self._in:` loop; stops with `none` as soon as a line
raises. -/
def runLines (st : ParseState) : List String → Option ParseState
  | [] => some st
  | line :: rest =>
    match stepLine st line with
    | none => none
    | some st1 => runLines st1 rest

/-- The `while self.parents: self.pop_stack()` loop: force-close every block
still open, ending at the bottom mapping. -/
def finish : List (Doc × String) → Doc → Doc
  | [], d => d
  | (p, name) :: rest, d => finish rest (odSet p name (Value.doc d))

/-- `Proto2Dict.__call__`: run all lines, force-close, return the root
document; `none` when the Python program raises. -/
def parse (lines : List String) : Option Doc :=
  match runLines initState lines with
  | none => none
  | some st => some (finish st.parents st.d)

/-- Number of lines consumed by the block-open pattern: the lines on which
`match_message` fires. -/
def openCount : List String → Nat
  | [] => 0
  | l :: ls => (if (matchMessage l).isSome then 1 else 0) + openCount ls

/-- Number of lines consumed by the block-close pattern: the lines on which
`match_end` fires, that is the first two matchers failed and `END_REGEX`
matched. -/
def closeCount : List String → Nat
  | [] => 0
  | l :: ls =>
    (if (matchMessage l).isNone && (matchValue l).isNone && matchEnd l then 1 else 0)
      + closeCount ls

/-- Modelled from the spec: the serialized output format of
`json.dump(proto, pb, separators=(",", ": "), indent=2)` is standard JSON.
The JSON library itself is not part of this repository, so the format is
modelled as the tree of JSON values that any generic JSON deserializer
recovers from the emitted text (whitespace and indentation carry no
information in JSON). -/
inductive JTree where
  | jobj : List (String × JTree) → JTree
  | jnum : Int → JTree
  | jstr : String → JTree
  | jbool : Bool → JTree
  | jnull : JTree
  | jarr : List JTree → JTree

mutual

/-- Serialization of one value, as `json.dump` emits it: an `int` becomes a
JSON number, a nested OrderedDict becomes a JSON object with the keys in
insertion order. -/
def valueToJson : Value → JTree
  | Value.int n => JTree.jnum n
  | Value.doc d => JTree.jobj (entriesToJson d)

/-- Serialization of the entries of an ordered mapping, in order. -/
def entriesToJson : List (String × Value) → List (String × JTree)
  | [] => []
  | (k, v) :: rest => (k, valueToJson v) :: entriesToJson rest

end

mutual

/-- Modelled from the spec: a generic deserializer reads back a JSON value;
reinterpreting it as a parser document turns numbers into integer entries
and objects into nested mappings, and fails on any other JSON form. -/
def jsonToValue : JTree → Option Value
  | JTree.jnum n => some (Value.int n)
  | JTree.jobj es =>
    match jsonEntries es with
    | some d => some (Value.doc d)
    | none => none
  | _ => none

/-- Deserialization of the entries of a JSON object, in order. -/
def jsonEntries : List (String × JTree) → Option (List (String × Value))
  | [] => some []
  | (k, j) :: rest =>
    match jsonToValue j, jsonEntries rest with
    | some v, some d => some ((k, v) :: d)
    | _, _ => none

end

/-- The document written by `convert_protofile`: the root OrderedDict as a
JSON object. -/
def docToJsonTop (d : Doc) : JTree := JTree.jobj (entriesToJson d)

/-- Reading the written document back with a generic deserializer. -/
def jsonToDocTop : JTree → Option Doc
  | JTree.jobj es => jsonEntries es
  | _ => none

/-- Running the loop on concatenated input first runs the left part; a raise
there aborts, otherwise the loop continues on the right part. -/
theorem runLines_append (st : ParseState) (l1 l2 : List String) :
    runLines st (l1 ++ l2) =
      match runLines st l1 with
      | none => none
      | some st1 => runLines st1 l2 := by
  induction l1 generalizing st with
  | nil => rfl
  | cons a as ih =>
    simp only [List.cons_append, runLines]
    cases h : stepLine st a with
    | none => rfl
    | some st1 => exact ih st1

/-- A lone closing brace behaves as `match_end`: the first two matchers fail
on it and `pop_stack` runs. -/
theorem stepLine_close (st : ParseState) : stepLine st "\x7d" = popStack st := rfl

/-- Feeding one explicit closing brace per open block performs exactly the
force-close pops. -/
theorem runLines_replicate_close (ps : List (Doc × String)) (d : Doc) :
    runLines ⟨d, ps⟩ (List.replicate ps.length "\x7d") = some ⟨finish ps d, []⟩ := by
  induction ps generalizing d with
  | nil => rfl
  | cons f rest ih =>
    obtain ⟨p, name⟩ := f
    have h1 : stepLine ⟨d, (p, name) :: rest⟩ "\x7d" =
        some ⟨odSet p name (Value.doc d), rest⟩ := rfl
    simp only [List.length_cons, List.replicate_succ, runLines, h1]
    exact ih (odSet p name (Value.doc d))

/-- Writing the same key twice is the same as writing it once with the later
value: OrderedDict assignment is last-write-wins. -/
theorem odSet_odSet (d : Doc) (k : String) (v1 v2 : Value) :
    odSet (odSet d k v1) k v2 = odSet d k v2 := by
  induction d with
  | nil => simp [odSet]
  | cons p rest ih =>
    obtain ⟨k0, v0⟩ := p
    by_cases h : k0 = k
    · subst h; simp [odSet]
    · simp [odSet, h, ih]

/-- Dispatch equation: a line on which `match_message` fires pushes a block,
no matter what the later matchers would do. -/
theorem stepLine_eq_message (st : ParseState) (l : String) (name : String)
    (hm : matchMessage l = some name) :
    stepLine st l = some (pushMessage st name) := by
  simp [stepLine, hm]

/-- Dispatch equation: when `match_message` fails and `match_value` fires,
the value action runs. -/
theorem stepLine_eq_value (st : ParseState) (l name tok : String)
    (hm : matchMessage l = none) (hv : matchValue l = some (name, tok)) :
    stepLine st l = valueAction st name tok := by
  simp [stepLine, hm, hv]

/-- Dispatch equation: when the first two matchers fail and `match_end`
fires, the stack is popped. -/
theorem stepLine_eq_end (st : ParseState) (l : String)
    (hm : matchMessage l = none) (hv : matchValue l = none)
    (he : matchEnd l = true) :
    stepLine st l = popStack st := by
  simp [stepLine, hm, hv, he]

/-- Dispatch equation: a line matching none of the three patterns leaves the
state unchanged. -/
theorem stepLine_eq_skip (st : ParseState) (l : String)
    (hm : matchMessage l = none) (hv : matchValue l = none)
    (he : matchEnd l = false) :
    stepLine st l = some st := by
  simp [stepLine, hm, hv, he]

/-- Net effect of one line on the depth of the stack: a block-open pushes
one frame, a block-close pops one, and every other non-raising line keeps
the depth. -/
theorem stepLine_parents_length (st0 st : ParseState) (l : String)
    (h : stepLine st0 l = some st) :
    st.parents.length
        + (if (matchMessage l).isNone && (matchValue l).isNone && matchEnd l then 1 else 0)
      = st0.parents.length + (if (matchMessage l).isSome then 1 else 0) := by
  cases hm : matchMessage l with
  | some name =>
    rw [stepLine_eq_message st0 l name hm] at h
    injection h with h
    subst h
    simp [pushMessage, hm]
  | none =>
    cases hv : matchValue l with
    | some kv =>
      obtain ⟨name, tok⟩ := kv
      rw [stepLine_eq_value st0 l name tok hm hv] at h
      cases hp : pyIntBase0 tok with
      | none => simp [valueAction, hp] at h
      | some i =>
        simp only [valueAction, hp] at h
        injection h with h
        subst h
        simp [hm, hv]
    | none =>
      cases he : matchEnd l with
      | false =>
        rw [stepLine_eq_skip st0 l hm hv he] at h
        injection h with h
        subst h
        simp [hm, hv, he]
      | true =>
        rw [stepLine_eq_end st0 l hm hv he] at h
        cases hps : st0.parents with
        | nil => simp [popStack, hps] at h
        | cons f rest =>
          obtain ⟨p, name⟩ := f
          simp only [popStack, hps] at h
          injection h with h
          subst h
          simp [hm, hv, he, hps]

/-- Stack depth after a successful run: final depth plus the closes consumed
equals the initial depth plus the opens consumed. -/
theorem runLines_depth (ls : List String) : ∀ (st0 st : ParseState),
    runLines st0 ls = some st →
    st.parents.length + closeCount ls = st0.parents.length + openCount ls := by
  induction ls with
  | nil =>
    intro st0 st h
    simp only [runLines, Option.some.injEq] at h
    subst h
    simp [openCount, closeCount]
  | cons l rest ih =>
    intro st0 st h
    simp only [runLines] at h
    cases hstep : stepLine st0 l with
    | none => rw [hstep] at h; cases h
    | some st1 =>
      rw [hstep] at h
      have h1 := stepLine_parents_length st0 st1 l hstep
      have h2 := ih st1 st h
      simp only [openCount, closeCount]
      omega

mutual

/-- Roundtrip on a single value: deserializing what was serialized gives the
value back. -/
theorem jsonToValue_valueToJson : ∀ (v : Value), jsonToValue (valueToJson v) = some v
  | Value.int _ => rfl
  | Value.doc d => by
    simp only [valueToJson, jsonToValue, jsonEntries_entriesToJson d]

/-- Roundtrip on entry lists: deserializing serialized entries gives them
back, in order. -/
theorem jsonEntries_entriesToJson :
    ∀ (d : List (String × Value)), jsonEntries (entriesToJson d) = some d
  | [] => rfl
  | (k, v) :: rest => by
    simp only [entriesToJson, jsonEntries, jsonToValue_valueToJson v,
      jsonEntries_entriesToJson rest]

end

/-- Claim C1: on the six-line input (message A, nested message B with X = 1,
then Y = 2 in A), parse returns the nested ordered mapping with A containing
B before Y, B containing X = 1, and Y = 2. -/
theorem nesting_example :
    parse ["message A \x7b", "  message B \x7b", "    X = 1", "  \x7d", "  Y = 2", "\x7d"] =
      some [("A", Value.doc [("B", Value.doc [("X", Value.int 1)]), ("Y", Value.int 2)])] := rfl

/-- Claim C2: whenever the line loop processes every line without raising,
the parser pops the stack until it is empty and returns the bottom mapping;
the result is the same as if every still-open block had been closed by an
explicit closing brace, so truncated input keeps all entries seen so far. -/
theorem force_close_returns_root (ls : List String) (st : ParseState)
    (h : runLines initState ls = some st) :
    parse ls = some (finish st.parents st.d) ∧
      parse (ls ++ List.replicate st.parents.length "\x7d") =
        some (finish st.parents st.d) := by
  constructor
  · simp [parse, h]
  · have hrep := runLines_replicate_close st.parents st.d
    simp [parse, runLines_append, h, hrep, finish]

/-- Witness for C2: the truncated input with an unclosed `message A` block
and one entry still yields the document with A fully populated. -/
theorem force_close_returns_root_witness :
    runLines initState ["message A \x7b", "  X = 1"] =
        some ⟨[("X", Value.int 1)], [([("A", Value.doc [])], "A")]⟩ ∧
      parse ["message A \x7b", "  X = 1"] = some [("A", Value.doc [("X", Value.int 1)])] := by
  constructor
  · rfl
  · exact (force_close_returns_root ["message A \x7b", "  X = 1"]
      ⟨[("X", Value.int 1)], [([("A", Value.doc [])], "A")]⟩ rfl).1

/-- Claim C3: value tokens are parsed with the base-prefix-aware integer
rule: 10 gives 10, 0x10 gives 16, 010 gives 8, both for the raw tokens and
through whole value-assignment lines. -/
theorem numeric_base_rule :
    pyIntBase0 "10" = some 10 ∧ pyIntBase0 "0x10" = some 16 ∧ pyIntBase0 "010" = some 8 ∧
      parse ["A = 10", "B = 0x10", "C = 010"] =
        some [("A", Value.int 10), ("B", Value.int 16), ("C", Value.int 8)] :=
  ⟨rfl, rfl, rfl, rfl⟩

/-- Counterexample for C4: the line `message Foo = 3` is not treated as a
block-open: MESSAGE_REGEX requires a space and an opening brace after the
name, so the block-open matcher rejects the line and parsing it yields the
empty document, not a document with a Foo block. -/
theorem message_foo_not_block_open :
    matchMessage "message Foo = 3" = none ∧
      parse ["message Foo = 3"] = some [] ∧
      parse ["message Foo = 3"] ≠ some [("Foo", Value.doc [])] := by
  refine ⟨rfl, rfl, ?_⟩
  intro h
  rw [show parse ["message Foo = 3"] = some ([] : Doc) from rfl] at h
  simp at h

/-- Claim C4 (amended): the three pattern checks are applied in strict
priority order — block-open, then value-assignment, then block-close — and
the first that matches handles the line; however `message Foo = 3` matches
none of the three patterns (the block-open pattern requires a brace after
the name), so that line is ignored rather than treated as a block-open. -/
theorem pattern_priority_order (st : ParseState) (line : String) :
    (∀ name, matchMessage line = some name → stepLine st line = some (pushMessage st name)) ∧
      (matchMessage line = none → ∀ name tok, matchValue line = some (name, tok) →
        stepLine st line = valueAction st name tok) ∧
      (matchMessage line = none → matchValue line = none → matchEnd line = true →
        stepLine st line = popStack st) ∧
      (matchMessage line = none → matchValue line = none → matchEnd line = false →
        stepLine st line = some st) ∧
      matchMessage "message Foo = 3" = none ∧
      matchValue "message Foo = 3" = none ∧
      matchEnd "message Foo = 3" = false ∧
      stepLine st "message Foo = 3" = some st := by
  refine ⟨?_, ?_, ?_, ?_, rfl, rfl, rfl, rfl⟩
  · intro name hm; exact stepLine_eq_message st line name hm
  · intro hm name tok hv; exact stepLine_eq_value st line name tok hm hv
  · intro hm hv he; exact stepLine_eq_end st line hm hv he
  · intro hm hv he; exact stepLine_eq_skip st line hm hv he

/-- Witness for C4: each dispatch case of the priority order at a concrete
line and state. -/
theorem pattern_priority_order_witness :
    stepLine initState "message A \x7b" = some (pushMessage initState "A") ∧
      stepLine initState "X = 5" = valueAction initState "X" "5" ∧
      stepLine ⟨[], [([], "A")]⟩ "\x7d" = popStack ⟨[], [([], "A")]⟩ ∧
      stepLine initState "" = some initState := by
  refine ⟨?_, ?_, ?_, ?_⟩
  · exact (pattern_priority_order initState "message A \x7b").1 "A" rfl
  · exact (pattern_priority_order initState "X = 5").2.1 rfl "X" "5" rfl
  · exact (pattern_priority_order ⟨[], [([], "A")]⟩ "\x7d").2.2.1 rfl rfl rfl
  · exact (pattern_priority_order initState "").2.2.2.1 rfl rfl rfl

/-- Claim C5: a line consumed by the block-close pattern while the stack is
empty makes the whole parse fail (the unguarded `list.pop()` raises), rather
than being a no-op or an ignored line. -/
theorem stray_close_underflow (pre : List String) (line : String) (rest : List String)
    (st : ParseState) (h1 : runLines initState pre = some st) (h2 : st.parents = [])
    (h3 : matchMessage line = none) (h4 : matchValue line = none)
    (h5 : matchEnd line = true) :
    parse (pre ++ line :: rest) = none := by
  have hstep : stepLine st line = none := by
    rw [stepLine_eq_end st line h3 h4 h5]
    simp [popStack, h2]
  simp [parse, runLines_append, h1, runLines, hstep]

/-- Witness for C5: the single stray closing brace fails the parse. -/
theorem stray_close_underflow_witness : parse ["\x7d"] = none :=
  stray_close_underflow [] "\x7d" [] initState rfl rfl rfl rfl rfl

/-- Claim C6: a line matching none of the three patterns raises nothing,
leaves the document and the stack unchanged, and the loop continues on the
remaining lines. -/
theorem unmatched_line_ignored (st : ParseState) (line : String) (rest : List String)
    (h1 : matchMessage line = none) (h2 : matchValue line = none)
    (h3 : matchEnd line = false) :
    stepLine st line = some st ∧ runLines st (line :: rest) = runLines st rest := by
  have hstep := stepLine_eq_skip st line h1 h2 h3
  exact ⟨hstep, by simp [runLines, hstep]⟩

/-- Witness for C6: a blank line and a comment line are both ignored. -/
theorem unmatched_line_ignored_witness :
    stepLine initState "" = some initState ∧
      stepLine initState "// comment" = some initState := by
  constructor
  · exact (unmatched_line_ignored initState "" [] rfl rfl rfl).1
  · exact (unmatched_line_ignored initState "// comment" [] rfl rfl rfl).1

/-- Claim C7: duplicate names in the same block are last-write-wins: X = 1
followed by X = 2 leaves X mapped to 2 (at the original position, before the
intervening Y), and in general assigning a key twice equals assigning it
once with the later value. -/
theorem duplicate_last_write_wins :
    parse ["X = 1", "Y = 5", "X = 2"] = some [("X", Value.int 2), ("Y", Value.int 5)] ∧
      ∀ (d : Doc) (k : String) (v1 v2 : Value), odSet (odSet d k v1) k v2 = odSet d k v2 :=
  ⟨rfl, odSet_odSet⟩

/-- Claim C8: on every input the loop finishes without raising, the number
of lines consumed by the block-open pattern equals the closes consumed plus
the final stack depth; hence the stack is empty at the end exactly when the
open and close counts are equal, and in that balanced case the force-close
loop pops nothing and the returned document is the active mapping itself. -/
theorem balanced_blocks_stack_empty (ls : List String) (st : ParseState)
    (h : runLines initState ls = some st) :
    st.parents.length + closeCount ls = openCount ls ∧
      (st.parents = [] ↔ openCount ls = closeCount ls) ∧
      (st.parents = [] → parse ls = some st.d) := by
  have hd := runLines_depth ls initState st h
  simp only [initState, List.length_nil, Nat.zero_add] at hd
  refine ⟨hd, ⟨?_, ?_⟩, ?_⟩
  · intro he
    rw [he] at hd
    simpa using hd.symm
  · intro he
    rw [← List.length_eq_zero]
    omega
  · intro he
    simp [parse, h, he, finish]

/-- Witness for C8: a balanced one-block input has one open, one close, and
an empty final stack. -/
theorem balanced_blocks_stack_empty_witness :
    runLines initState ["message A \x7b", "X = 1", "\x7d"] =
        some ⟨[("A", Value.doc [("X", Value.int 1)])], []⟩ ∧
      openCount ["message A \x7b", "X = 1", "\x7d"] =
        closeCount ["message A \x7b", "X = 1", "\x7d"] := by
  constructor
  · rfl
  · exact (balanced_blocks_stack_empty ["message A \x7b", "X = 1", "\x7d"]
      ⟨[("A", Value.doc [("X", Value.int 1)])], []⟩ rfl).2.1.mp rfl

/-- Claim C9: round-trip — serializing any document as the JSON value tree
that `json.dump` emits and reading it back with a generic deserializer
reproduces the same nested structure, with the same keys in the same
insertion order and the same integer values. -/
theorem json_roundtrip : ∀ (d : Doc), jsonToDocTop (docToJsonTop d) = some d := by
  intro d
  simp only [docToJsonTop, jsonToDocTop, jsonEntries_entriesToJson d]

/-- Claim C10: a value-assignment line whose value token is not a valid
base-prefixed integer literal makes the parse fail (the `int` call raises
ValueError) instead of skipping the line, so not every line sequence yields
a document. -/
theorem invalid_value_token_aborts :
    matchValue "X = foo" = some ("X", "foo") ∧ pyIntBase0 "foo" = none ∧
      parse ["X = foo"] = none ∧
      matchValue "X = 1abc" = some ("X", "1abc") ∧ pyIntBase0 "1abc" = none ∧
      parse ["X = 1abc"] = none ∧
      ¬ ∀ (ls : List String), (parse ls).isSome := by
  refine ⟨rfl, rfl, rfl, rfl, rfl, rfl, ?_⟩
  intro hall
  have hfoo := hall ["X = foo"]
  rw [show parse ["X = foo"] = none from rfl] at hfoo
  simp at hfoo

end ConvertProtofile
